import Mathlib

/-!
# Verification of the gnss_config message-compilation and transport layer

Shallow embedding of the C firmware that configures a u-blox GNSS module:
the NMEA XOR checksum engine (`get_checksum`), hex rendering
(`renderHex`, the C `sprintf("%x", ...)` call in `send_nmea`), message
compilation (`compile_message`), strtok-based baud-field extraction
(`extract_baud_rate`), and the transmission functions
(`fire_nmea_msg`, `fire_ubx_msg`, `send_nmea`, `send_ubx`).

C strings are modelled as `String` / `List Char` (no embedded NUL); the
UART side effects are modelled as an explicit event trace.
-/

namespace GnssConfig

/-- Embeds C `get_checksum` (identical in all source variants).
The C copies the input into a local `duplicate` buffer, truncates the
copy at the first `*` (`strchr` + overwrite with NUL), and XOR-folds
the bytes of the truncated copy starting at index 1 (skipping the `$`).
If no `*` is present it returns 0. -/
def get_checksum (s : String) : Nat :=
  let duplicate := s.toList
  if '*' ∈ duplicate then
    ((duplicate.takeWhile (fun c => c != '*')).drop 1).foldl
      (fun acc c => acc ^^^ c.toNat) 0
  else 0

/-- Embeds the C `sprintf(checksum, "%x", decimal_checksum)` in
`send_nmea`: lowercase hexadecimal with no zero padding ("0" for 0,
one digit for values below 0x10). `Nat.toDigits 16` produces exactly
the lowercase `%x` digit sequence. -/
def renderHex (n : Nat) : String :=
  String.mk (Nat.toDigits 16 n)

/-- Embeds C `compile_message`: `strcat` of the raw body, the rendered
checksum and the terminator into an initially empty buffer, i.e. plain
concatenation. -/
def compile_message (raw_msg checksum terminator : String) : String :=
  raw_msg ++ checksum ++ terminator

/-- The spec's formulation of the checksum algorithm: XOR-fold every
byte strictly between the `$` (index 0, so starting at index 1) and
the first `*` (exclusive), expressed with an explicit index of the
`*` delimiter. Used to compare against `get_checksum`. -/
def specChecksum (s : String) : Nat :=
  let l := s.toList
  ((l.take (l.findIdx (fun c => c == '*'))).drop 1).foldl
    (fun acc c => acc ^^^ c.toNat) 0

/-- One observable UART-side effect of the driver: a single raw
character write (`uart_putc_raw`), a block write
(`uart_write_blocking`, recording the buffer pointer's contents and
the length argument as passed), or a local baud-rate reconfiguration
(`uart_set_baudrate`). -/
inductive Event where
  | putc : Char → Event
  | writeBlock : List Nat → Nat → Event
  | setBaud : Int → Event
deriving DecidableEq

/-- Embeds C `fire_nmea_msg` (src/unnamed/part_000): an outer loop of
5 repetitions; in live mode (`testrun == 0`) the inner loop writes the
message character by character with `uart_putc_raw`; otherwise it only
prints a per-character debug trace to the console (no UART event). -/
def fire_nmea_msg (msg : String) (testrun : Nat) : List Event :=
  ((List.range 5).map (fun _ =>
    if testrun = 0 then msg.toList.map Event.putc else [])).flatten

/-- Embeds C `fire_ubx_msg`. In live mode it calls
`uart_write_blocking(UART_ID, msg, len)` in a loop; the loop bound is
hardcoded in each source variant (5 in src/unnamed/part_000 and
part_001, 3 in src/src/gnss_config.c), so it is taken here as the
explicit parameter `reps`. In test mode nothing is written. -/
def fire_ubx_msg (reps : Nat) (msg : List Nat) (len : Nat)
    (testrun : Nat) : List Event :=
  if testrun = 0 then (List.range reps).map (fun _ => Event.writeBlock msg len)
  else []

/-- C `atoi` on a token (a NUL-free character list): skip leading
whitespace, optional sign, then the value of the leading run of
decimal digits (0 when there is none). -/
def atoi (l : List Char) : Int :=
  let l1 := l.dropWhile (fun c =>
    c == ' ' || c == '\t' || c == '\n' || c == '\r' ||
    c == '\x0b' || c == '\x0c')
  match l1 with
  | '-' :: r =>
      - Int.ofNat ((r.takeWhile Char.isDigit).foldl
          (fun a c => a * 10 + (c.toNat - 48)) 0)
  | '+' :: r =>
      Int.ofNat ((r.takeWhile Char.isDigit).foldl
          (fun a c => a * 10 + (c.toNat - 48)) 0)
  | _ =>
      Int.ofNat ((l1.takeWhile Char.isDigit).foldl
          (fun a c => a * 10 + (c.toNat - 48)) 0)

/-- One call of C `strtok(·, ",")` on a buffer split as
`done ++ rest`: `done` is the already-consumed prefix (holding the NUL
bytes strtok has written over consumed commas), `rest` the active
remainder. The call skips leading commas, returns the next maximal
comma-free run as the token, and overwrites the comma that terminated
it (if any) with NUL. Returns `none` (C `NULL`) when the remainder is
exhausted, leaving the buffer untouched. -/
def strtok_call (st : List Char × List Char) :
    Option (List Char) × (List Char × List Char) :=
  let (done, rest) := st
  let pre := rest.takeWhile (fun c => c == ',')
  let l1 := rest.dropWhile (fun c => c == ',')
  if l1 = [] then (none, (done, rest))
  else
    let tok := l1.takeWhile (fun c => c != ',')
    let r2 := l1.dropWhile (fun c => c != ',')
    (some tok,
     (done ++ pre ++ tok ++ (if r2 = [] then [] else ['\x00']), r2.drop 1))

/-- Runs `n` successive `strtok` calls, returning the result of the
last call and the final buffer state (C keeps only the last `token`). -/
def strtok_ncalls : Nat → (List Char × List Char) →
    Option (List Char) × (List Char × List Char)
  | 0, st => (none, st)
  | 1, st => strtok_call st
  | n + 2, st => strtok_ncalls (n + 1) (strtok_call st).2

/-- Embeds C `extract_baud_rate`: `strtok(string, ",")` followed by 5
calls of `strtok(NULL, ",")` (6 calls in all, yielding the token at
index 5), then `atoi(token)`. When the 6th call returns `NULL`, the C
passes `NULL` to `atoi` — undefined behaviour, modelled as the absent
result `none`. The second component is the buffer after strtok's
mutations. -/
def extract_baud_rate_run (buf : List Char) : Option Int × List Char :=
  let res := strtok_ncalls 6 ([], buf)
  (res.1.map atoi, res.2.1 ++ res.2.2)

/-- The value returned by `extract_baud_rate` (ignoring the buffer
mutation). -/
def extract_baud_rate (s : String) : Option Int :=
  (extract_baud_rate_run s.toList).1

/-- Accumulator worker for `tokenize`: `acc` is the (reversed) token
currently being read. A comma flushes a nonempty accumulator as a
finished token; the end of the list flushes the last one. -/
def tokenize_go (acc : List Char) : List Char → List (List Char)
  | [] => if acc = [] then [] else [acc.reverse]
  | c :: rest =>
      if c == ',' then
        if acc = [] then tokenize_go [] rest
        else acc.reverse :: tokenize_go [] rest
      else tokenize_go (c :: acc) rest

/-- The pure token sequence `strtok(·, ",")` produces over a string:
the maximal nonempty comma-free runs, in order. Reference semantics
used to count the comma-separated fields of a sentence body. -/
def tokenize (l : List Char) : List (List Char) :=
  tokenize_go [] l

/-- Number of nonempty comma-separated fields of a sentence body. -/
def numFields (s : String) : Nat := (tokenize s.toList).length

/-- The baud-rate-change command template of `send_nmea`
(src/unnamed/part_000): `update_baud_rate`. -/
def update_baud_rate : String := "$PUBX,41,1,3,3,115200,0*"

/-- The post-transmission baud-update step of `send_nmea`: extract the
new baud rate from the command body and call `uart_set_baudrate` with
it. When extraction fails (the C would pass `NULL` to `atoi`,
undefined behaviour modelled as no result), no reconfiguration event
is produced. -/
def baud_update_step (cmd : String) : List Event :=
  match extract_baud_rate cmd with
  | some new_baud => [Event.setBaud new_baud]
  | none => []

/-- Embeds C `send_nmea` (src/unnamed/part_000), parameterised by the
hand-edited `raw_msg` variable: compute the checksum, render it in hex
(`sprintf "%x"`), compile the frame with the `"\r\n"` terminator,
transmit it with `fire_nmea_msg`, and — when the frame's first 23
characters match the `update_baud_rate` template and the run is live —
extract the new baud rate from the template and reconfigure the local
UART (`uart_set_baudrate`). `strncmp(a, b, 23) == 0` on NUL-free C
strings is equality of the first 23 characters. -/
def send_nmea (raw_msg : String) (testrun : Nat) : List Event :=
  let decimal_checksum := get_checksum raw_msg
  let checksum := renderHex decimal_checksum
  let msg_terminator := "\r\n"
  let nmea_msg := compile_message raw_msg checksum msg_terminator
  let fired := fire_nmea_msg nmea_msg testrun
  if nmea_msg.toList.take 23 = update_baud_rate.toList.take 23 ∧ testrun = 0 then
    fired ++ baud_update_step update_baud_rate
  else fired

/-- UBX CFG-CFG save-all frame (21 bytes), a catalog constant. -/
def cfg_cfg_save_all : List Nat :=
  [0xB5,0x62,0x06,0x09,0x0D,0x00,0x00,0x00,0x00,0x00,0xFF,
   0xFF,0x00,0x00,0x00,0x00,0x00,0x00,0x03,0x1D,0xAB]

/-- UBX CFG-PRT baud-change frame (28 bytes), a catalog constant. -/
def change_baud_rate : List Nat :=
  [0xB5,0x62,0x06,0x00,0x14,0x00,0x01,0x00,0x00,0x00,
   0xD0,0x08,0x00,0x00,0x00,0xC2,0x01,0x00,0x07,0x00,
   0x03,0x00,0x00,0x00,0x00,0x00,0xC0,0x7E]

/-- Embeds C `send_ubx` of src/unnamed/part_000: transmits the buffer
`cfg_cfg_save_all` but passes `sizeof(change_baud_rate)` — the size of
a different array — as the length (repeat bound 5 in that variant). -/
def send_ubx (testrun : Nat) : List Event :=
  fire_ubx_msg 5 cfg_cfg_save_all change_baud_rate.length testrun

/-- Embeds C `send_ubx` of src/src/gnss_config.c: transmits
`cfg_cfg_save_all` with length `sizeof(cfg_cfg_save_all) - 1` (one
byte short; repeat bound 3 in that variant). -/
def send_ubx_gnss (testrun : Nat) : List Event :=
  fire_ubx_msg 3 cfg_cfg_save_all (cfg_cfg_save_all.length - 1) testrun

/-- Buffer-level view of C `get_checksum`: the function `strcpy`s the
input into a fresh local array `duplicate` and writes only into that
copy (the `*` is overwritten with NUL in the copy); the input buffer
is never stored through. Returns the checksum together with the
post-call contents of the input buffer. -/
def get_checksum_run (buf : List Char) : Nat × List Char :=
  let duplicate := buf
  let truncated := duplicate.takeWhile (fun c => c != '*')
  (if '*' ∈ duplicate then
    (truncated.drop 1).foldl (fun acc c => acc ^^^ c.toNat) 0
   else 0,
   buf)

end GnssConfig

namespace GnssConfig

/-! ## Helper lemmas -/

/-- Truncation at the first `*` ignores anything appended after a body
that already contains a `*`. -/
lemma takeWhile_star_append (l₁ l₂ : List Char) (h : '*' ∈ l₁) :
    (l₁ ++ l₂).takeWhile (fun c => c != '*')
      = l₁.takeWhile (fun c => c != '*') := by
  induction l₁ with
  | nil => cases h
  | cons a t ih =>
      by_cases ha : a = '*'
      · subst ha
        simp [List.takeWhile_cons]
      · have ht : '*' ∈ t := by
          rcases List.mem_cons.mp h with h' | h'
          · exact absurd h'.symm ha
          · exact h'
        simp [List.takeWhile_cons, ha, ih ht]

/-- Truncating before the first `*` is taking the prefix of length
`findIdx (· == '*')`. -/
lemma takeWhile_star_eq_take_findIdx (l : List Char) :
    l.takeWhile (fun c => c != '*')
      = l.take (l.findIdx (fun c => c == '*')) := by
  induction l with
  | nil => rfl
  | cons a t ih =>
      by_cases ha : a = '*'
      · subst ha
        simp [List.takeWhile_cons, List.findIdx_cons]
      · have ha' : (a == '*') = false := by simp [ha]
        simp [List.takeWhile_cons, List.findIdx_cons, ha, ha', ih]

/-- In live mode `fire_nmea_msg` emits the message's characters,
5 identical repetitions in sequence. -/
lemma fire_nmea_msg_live (msg : String) :
    fire_nmea_msg msg 0
      = (List.replicate 5 (msg.toList.map Event.putc)).flatten := by
  simp [fire_nmea_msg, List.map_const']

/-- `fire_nmea_msg` never reconfigures the baud rate. -/
lemma setBaud_not_mem_fire_nmea (msg : String) (t : Nat) (b : Int) :
    Event.setBaud b ∉ fire_nmea_msg msg t := by
  intro hmem
  simp only [fire_nmea_msg, List.mem_flatten, List.mem_map, List.mem_range] at hmem
  obtain ⟨l, ⟨k, hk, rfl⟩, hm⟩ := hmem
  split at hm
  · simp only [List.mem_map] at hm
    obtain ⟨c, -, hc⟩ := hm
    cases hc
  · simp at hm

/-- Reading a comma-free chunk extends the accumulator. -/
lemma tokenize_go_token (tok : List Char)
    (h : ∀ c ∈ tok, (c == ',') = false) :
    ∀ acc rest, tokenize_go acc (tok ++ rest)
      = tokenize_go (tok.reverse ++ acc) rest := by
  induction tok with
  | nil => intro acc rest; rfl
  | cons c t ih =>
      intro acc rest
      have hc : (c == ',') = false := h c (List.mem_cons_self c t)
      have ht : ∀ x ∈ t, (x == ',') = false :=
        fun x hx => h x (List.mem_cons_of_mem c hx)
      simp only [List.cons_append, tokenize_go, hc, Bool.false_eq_true,
        if_false, List.reverse_cons, List.append_assoc, List.cons_append,
        List.nil_append]
      exact ih ht (c :: acc) rest

/-- Leading commas are skipped when no token is being accumulated. -/
lemma tokenize_go_commas (pre : List Char)
    (h : ∀ c ∈ pre, (c == ',') = true) :
    ∀ rest, tokenize_go [] (pre ++ rest) = tokenize_go [] rest := by
  induction pre with
  | nil => intro rest; rfl
  | cons c t ih =>
      intro rest
      have hc : (c == ',') = true := h c (List.mem_cons_self c t)
      have ht : ∀ x ∈ t, (x == ',') = true :=
        fun x hx => h x (List.mem_cons_of_mem c hx)
      simp only [List.cons_append, tokenize_go, hc, if_true]
      exact ih ht rest

/-- `tokenize` of a string that is nothing but commas (or empty). -/
lemma tokenize_eq_nil (l : List Char)
    (h : l.dropWhile (fun c => c == ',') = []) :
    tokenize l = [] := by
  have hsplit : l.takeWhile (fun c => c == ',') ++ [] = l := by
    rw [← h]; exact List.takeWhile_append_dropWhile _ _
  have hpre : ∀ c ∈ l.takeWhile (fun c => c == ','), (c == ',') = true :=
    fun c hc => List.mem_takeWhile_imp (p := fun c => c == ',') hc
  unfold tokenize
  rw [← hsplit, tokenize_go_commas _ hpre]
  rfl

/-- Unfolding law for `tokenize` when at least one token remains: the
first token is the maximal comma-free run after the leading commas,
and the rest is tokenized after dropping the delimiter. This is
exactly the step `strtok_call` performs. -/
lemma tokenize_eq_cons (l : List Char)
    (h : l.dropWhile (fun c => c == ',') ≠ []) :
    tokenize l =
      (l.dropWhile (fun c => c == ',')).takeWhile (fun c => c != ',') ::
        tokenize (((l.dropWhile (fun c => c == ',')).dropWhile
          (fun c => c != ',')).drop 1) := by
  have hsplit : l.takeWhile (fun c => c == ',')
      ++ l.dropWhile (fun c => c == ',') = l :=
    List.takeWhile_append_dropWhile _ _
  have hpre : ∀ c ∈ l.takeWhile (fun c => c == ','), (c == ',') = true :=
    fun c hc => List.mem_takeWhile_imp (p := fun c => c == ',') hc
  have hsplit2 : (l.dropWhile (fun c => c == ',')).takeWhile (fun c => c != ',')
      ++ (l.dropWhile (fun c => c == ',')).dropWhile (fun c => c != ',')
      = l.dropWhile (fun c => c == ',') :=
    List.takeWhile_append_dropWhile _ _
  have htok : ∀ c ∈ (l.dropWhile (fun c => c == ',')).takeWhile
      (fun c => c != ','), (c == ',') = false := by
    intro c hc
    have := List.mem_takeWhile_imp hc
    simpa using this
  have htokne : (l.dropWhile (fun c => c == ',')).takeWhile
      (fun c => c != ',') ≠ [] := by
    cases hd : l.dropWhile (fun c => c == ',') with
    | nil => exact absurd hd h
    | cons a t =>
        have ha : (a == ',') = false := by
          have := List.head?_dropWhile_not (fun c => c == ',') l
          rw [hd] at this
          simpa using this
        have ha' : (a != ',') = true := by simp [bne, ha]
        simp [List.takeWhile_cons, ha']
  unfold tokenize
  conv_lhs => rw [← hsplit]
  rw [tokenize_go_commas _ hpre]
  conv_lhs => rw [← hsplit2]
  rw [tokenize_go_token _ htok]
  cases hr2 : (l.dropWhile (fun c => c == ',')).dropWhile (fun c => c != ',') with
  | nil =>
      simp only [tokenize_go, List.append_nil, List.reverse_eq_nil_iff]
      rw [if_neg htokne]
      simp [tokenize_go]
  | cons c r3 =>
      have hc : (c != ',') = false := by
        have := List.head?_dropWhile_not (fun c => c != ',')
          (l.dropWhile (fun c => c == ','))
        rw [hr2] at this
        simpa using this
      have hc' : (c == ',') = true := by
        revert hc; cases h' : c == ',' <;> simp [bne, h']
      simp only [tokenize_go, hc', if_true, List.append_nil,
        List.reverse_eq_nil_iff, List.reverse_reverse, List.drop_succ_cons,
        List.drop_zero]
      rw [if_neg htokne]

/-- `strtok_call` in the exhausted case: `NULL` result, state kept. -/
lemma strtok_call_none (done rest : List Char)
    (h : rest.dropWhile (fun c => c == ',') = []) :
    strtok_call (done, rest) = (none, (done, rest)) := by
  simp [strtok_call, h]

/-- `strtok_call` in the token case: the token is the maximal
comma-free run after the skipped commas and the active remainder
advances past the consumed delimiter. -/
lemma strtok_call_some (done rest : List Char)
    (h : rest.dropWhile (fun c => c == ',') ≠ []) :
    strtok_call (done, rest) =
      (some ((rest.dropWhile (fun c => c == ',')).takeWhile (fun c => c != ',')),
       (done ++ rest.takeWhile (fun c => c == ',')
          ++ (rest.dropWhile (fun c => c == ',')).takeWhile (fun c => c != ',')
          ++ (if (rest.dropWhile (fun c => c == ',')).dropWhile
                (fun c => c != ',') = [] then [] else ['\x00']),
        ((rest.dropWhile (fun c => c == ',')).dropWhile
          (fun c => c != ',')).drop 1)) := by
  simp [strtok_call, h]

/-- The result of the `n+1`-st `strtok` call is the `n`-th token of
the pure tokenization of the active remainder; the `done` prefix never
influences it. -/
lemma strtok_ncalls_fst (n : Nat) :
    ∀ done rest : List Char,
      (strtok_ncalls (n + 1) (done, rest)).1 = (tokenize rest)[n]? := by
  induction n with
  | zero =>
      intro done rest
      by_cases h : rest.dropWhile (fun c => c == ',') = []
      · rw [show strtok_ncalls 1 (done, rest) = strtok_call (done, rest) from rfl,
          strtok_call_none done rest h, tokenize_eq_nil rest h]
        simp
      · rw [show strtok_ncalls 1 (done, rest) = strtok_call (done, rest) from rfl,
          strtok_call_some done rest h, tokenize_eq_cons rest h]
        simp
  | succ n ih =>
      intro done rest
      rw [show strtok_ncalls (n + 2) (done, rest)
            = strtok_ncalls (n + 1) (strtok_call (done, rest)).2 from rfl]
      by_cases h : rest.dropWhile (fun c => c == ',') = []
      · rw [strtok_call_none done rest h]
        rw [ih done rest, tokenize_eq_nil rest h]
        simp
      · rw [strtok_call_some done rest h]
        rw [ih _ _, tokenize_eq_cons rest h]
        simp

/-- Concatenating a string changes nothing in the list of characters
of its first part; stated for `String.toList`. -/
lemma toList_append (a b : String) :
    (a ++ b).toList = a.toList ++ b.toList :=
  String.data_append a b

/-- Appending hex digits and a terminator after a body that already
contains its `*` delimiter does not change the computed checksum. -/
lemma get_checksum_append (body rest : String) (h : '*' ∈ body.toList) :
    get_checksum (body ++ rest) = get_checksum body := by
  unfold get_checksum
  rw [toList_append]
  rw [if_pos (List.mem_append_left _ h), if_pos h,
    takeWhile_star_append body.toList rest.toList h]

/-- Live `send_nmea` evaluated: the fired frame followed by the
baud-update step exactly when the frame's first 23 characters match
the baud-rate-change template. -/
lemma send_nmea_live (raw_msg : String) :
    send_nmea raw_msg 0 =
      fire_nmea_msg (compile_message raw_msg
        (renderHex (get_checksum raw_msg)) "\r\n") 0 ++
      (if (compile_message raw_msg (renderHex (get_checksum raw_msg))
            "\r\n").toList.take 23 = update_baud_rate.toList.take 23
       then baud_update_step update_baud_rate else []) := by
  simp only [send_nmea, compile_message]
  split
  · rename_i hcond
    rw [if_pos hcond.1]
  · rename_i hcond
    rw [if_neg (fun hh => hcond ⟨hh, by trivial⟩)]
    simp

/-! ## Claim theorems -/

/-- C1. Round-trip law: for every sentence body with well-formed `$`
and `*` delimiters, compiling a Frame (body, then the rendered hex
checksum, then the CR-LF terminator) and recomputing the checksum over
the Frame's embedded body yields the same checksum value, hence
exactly the embedded HexChecksum once rendered. -/
theorem checksum_round_trip (body : String)
    (hstar : '*' ∈ body.toList)
    (_hdollar : body.toList.head? = some '$') :
    get_checksum (compile_message body (renderHex (get_checksum body)) "\r\n")
        = get_checksum body ∧
    renderHex (get_checksum
        (compile_message body (renderHex (get_checksum body)) "\r\n"))
        = renderHex (get_checksum body) := by
  have key : get_checksum
      (compile_message body (renderHex (get_checksum body)) "\r\n")
      = get_checksum body := by
    unfold compile_message
    rw [String.append_assoc]
    exact get_checksum_append body _ hstar
  exact ⟨key, by rw [key]⟩

/-- Witness for C1 at the catalog body `$PUBX,40,GLL,0,0,0,0*`. -/
theorem checksum_round_trip_w :
    get_checksum (compile_message "$PUBX,40,GLL,0,0,0,0*"
        (renderHex (get_checksum "$PUBX,40,GLL,0,0,0,0*")) "\r\n")
      = get_checksum "$PUBX,40,GLL,0,0,0,0*" ∧
    renderHex (get_checksum (compile_message "$PUBX,40,GLL,0,0,0,0*"
        (renderHex (get_checksum "$PUBX,40,GLL,0,0,0,0*")) "\r\n"))
      = renderHex (get_checksum "$PUBX,40,GLL,0,0,0,0*") :=
  checksum_round_trip "$PUBX,40,GLL,0,0,0,0*" (by decide) (by decide)

/-- C2. `get_checksum` on any body containing a `*` is the XOR-fold of
every byte strictly between index 0 (the `$`) and the first `*`
(exclusive), and the three documented regression values hold:
`0x5C`, `0x45`, `0x1C`. -/
theorem checksum_xor_fold_regressions (s : String) (h : '*' ∈ s.toList) :
    get_checksum s = specChecksum s ∧
    get_checksum "$PUBX,40,GLL,0,0,0,0*" = 0x5C ∧
    get_checksum "$PUBX,40,ZDA,1,1,1,0*" = 0x45 ∧
    get_checksum "$PUBX,41,1,3,3,115200,0*" = 0x1C := by
  refine ⟨?_, by decide, by decide, by decide⟩
  unfold get_checksum specChecksum
  rw [if_pos h, takeWhile_star_eq_take_findIdx]

/-- Witness for C2 at the catalog body `$PUBX,40,GSV,0,0,0,0*`. -/
theorem checksum_xor_fold_regressions_w :
    get_checksum "$PUBX,40,GSV,0,0,0,0*"
        = specChecksum "$PUBX,40,GSV,0,0,0,0*" ∧
    get_checksum "$PUBX,40,GLL,0,0,0,0*" = 0x5C ∧
    get_checksum "$PUBX,40,ZDA,1,1,1,0*" = 0x45 ∧
    get_checksum "$PUBX,41,1,3,3,115200,0*" = 0x1C :=
  checksum_xor_fold_regressions "$PUBX,40,GSV,0,0,0,0*" (by decide)

/-- C3. The source's hex rendering (`sprintf "%x"`) is not
zero-padded: on the well-formed body `$AA*` (it starts with `$` and
contains `*`) the checksum is 0 and the rendered checksum is the
single character `"0"`, of length 1, not the two characters the claim
requires. -/
theorem renderHex_drops_leading_zero :
    ('*' ∈ "$AA*".toList) ∧ "$AA*".toList.head? = some '$' ∧
    get_checksum "$AA*" = 0 ∧
    renderHex (get_checksum "$AA*") = "0" ∧
    (renderHex (get_checksum "$AA*")).length = 1 := by
  refine ⟨by decide, by decide, by decide, by decide, by decide⟩

/-- C4. A live (testrun = 0) transmission with repeat count 5 emits
exactly 5 write operations, each with a byte-identical payload, in
strict sequence with nothing interleaved: `fire_nmea_msg` emits the
frame's characters 5 times over, and `fire_ubx_msg` performs exactly 5
block writes of the same buffer and length. -/
theorem transmit_five_repeats_in_order :
    (∀ msg : String,
      fire_nmea_msg msg 0
        = (List.replicate 5 (msg.toList.map Event.putc)).flatten) ∧
    (∀ (b : List Nat) (len : Nat),
      fire_ubx_msg 5 b len 0
        = List.replicate 5 (Event.writeBlock b len)) := by
  refine ⟨fire_nmea_msg_live, ?_⟩
  intro b len
  simp [fire_ubx_msg, List.map_const']

/-- C5. Whenever a live `send_nmea` run reconfigures the local baud
rate, the `uart_set_baudrate` event is the very last event of the
trace: all 5 repetitions of the complete compiled frame are
transmitted first, with nothing interleaved. -/
theorem baud_reconfig_after_full_transmission (raw_msg : String) (b : Int)
    (h : Event.setBaud b ∈ send_nmea raw_msg 0) :
    send_nmea raw_msg 0 =
      (List.replicate 5
        ((compile_message raw_msg (renderHex (get_checksum raw_msg))
          "\r\n").toList.map Event.putc)).flatten
      ++ [Event.setBaud b] := by
  have hb : baud_update_step update_baud_rate = [Event.setBaud 115200] := by
    decide
  rw [send_nmea_live] at h ⊢
  by_cases hc : (compile_message raw_msg (renderHex (get_checksum raw_msg))
      "\r\n").toList.take 23 = update_baud_rate.toList.take 23
  · rw [if_pos hc, hb] at h ⊢
    rcases List.mem_append.mp h with h' | h'
    · exact absurd h' (setBaud_not_mem_fire_nmea _ _ _)
    · have hb' : b = 115200 := by simpa using h'
      subst hb'
      rw [fire_nmea_msg_live]
  · rw [if_neg hc] at h
    simp only [List.append_nil] at h
    exact absurd h (setBaud_not_mem_fire_nmea _ _ _)

/-- Witness for C5 at the baud-rate-change command. -/
theorem baud_reconfig_after_full_transmission_w :
    Event.setBaud 115200 ∈ send_nmea "$PUBX,41,1,3,3,115200,0*" 0 ∧
    send_nmea "$PUBX,41,1,3,3,115200,0*" 0 =
      (List.replicate 5
        ((compile_message "$PUBX,41,1,3,3,115200,0*"
          (renderHex (get_checksum "$PUBX,41,1,3,3,115200,0*"))
          "\r\n").toList.map Event.putc)).flatten
      ++ [Event.setBaud 115200] :=
  have hm : Event.setBaud 115200 ∈ send_nmea "$PUBX,41,1,3,3,115200,0*" 0 := by
    decide
  ⟨hm, baud_reconfig_after_full_transmission "$PUBX,41,1,3,3,115200,0*" 115200 hm⟩

/-- C6 counterexample: the body `$PUBX,41,1,3,3,9600` has 6 nonempty
comma-separated fields — only 4 after the message-type field `41`,
fewer than the 5 the claim requires — yet `extract_baud_rate` does not
fail: it succeeds and returns 9600. -/
theorem extract_succeeds_below_claimed_threshold :
    numFields "$PUBX,41,1,3,3,9600" = 6 ∧
    numFields "$PUBX,41,1,3,3,9600" - 2 < 5 ∧
    extract_baud_rate "$PUBX,41,1,3,3,9600" = some 9600 ∧
    extract_baud_rate "$PUBX,41,1,3,3,9600" ≠ none := by
  refine ⟨by decide, by decide, by decide, by decide⟩

/-- C6 (amended). Baud-field extraction on
`$PUBX,41,1,3,3,115200,0*` yields 115200; on a body with fewer than 6
nonempty comma-separated fields in total (i.e. fewer than 4 after the
message type) the 6th `strtok` call returns `NULL`, extraction fails,
and no local baud-rate reconfiguration event is produced. -/
theorem extract_baud_rate_amended (s : String) (h : numFields s < 6) :
    extract_baud_rate "$PUBX,41,1,3,3,115200,0*" = some 115200 ∧
    extract_baud_rate s = none ∧
    baud_update_step s = [] := by
  have hfail : extract_baud_rate s = none := by
    have h6 : (strtok_ncalls 6 ([], s.toList)).1
        = (tokenize s.toList)[5]? := strtok_ncalls_fst 5 [] s.toList
    simp only [extract_baud_rate, extract_baud_rate_run]
    rw [h6, List.getElem?_eq_none (Nat.le_of_lt_succ h)]
    rfl
  refine ⟨by decide, hfail, ?_⟩
  unfold baud_update_step
  rw [hfail]

/-- Witness for C6 at the short body `$PUBX,41`. -/
theorem extract_baud_rate_amended_w :
    extract_baud_rate "$PUBX,41,1,3,3,115200,0*" = some 115200 ∧
    extract_baud_rate "$PUBX,41" = none ∧
    baud_update_step "$PUBX,41" = [] :=
  extract_baud_rate_amended "$PUBX,41" (by decide)

/-- C7. The live UBX transmission passes a length taken from the wrong
buffer: `send_ubx` of src/unnamed/part_000 writes the 21-byte
`cfg_cfg_save_all` buffer with length `sizeof(change_baud_rate)` = 28,
and `send_ubx` of src/src/gnss_config.c writes it with length
`sizeof(cfg_cfg_save_all) - 1` = 20 — in both variants the length
passed to the serial write differs from the byte length of the buffer
actually transmitted. -/
theorem send_ubx_wrong_length :
    send_ubx 0
      = List.replicate 5
          (Event.writeBlock cfg_cfg_save_all change_baud_rate.length) ∧
    change_baud_rate.length = 28 ∧
    cfg_cfg_save_all.length = 21 ∧
    send_ubx_gnss 0
      = List.replicate 3
          (Event.writeBlock cfg_cfg_save_all (cfg_cfg_save_all.length - 1)) ∧
    cfg_cfg_save_all.length - 1 = 20 := by
  refine ⟨by decide, by decide, by decide, by decide, by decide⟩

/-- C8. In test mode (testrun ≠ 0) no transmission path emits any UART
event: no character writes, no block writes, no baud reconfiguration —
nothing reaches the wire. -/
theorem test_mode_no_uart_writes (raw msg : String) (reps len : Nat)
    (b : List Nat) (t : Nat) (h : t ≠ 0) :
    fire_nmea_msg msg t = [] ∧
    fire_ubx_msg reps b len t = [] ∧
    send_nmea raw t = [] ∧
    send_ubx t = [] ∧
    send_ubx_gnss t = [] := by
  have hn : ∀ m : String, fire_nmea_msg m t = [] := by
    intro m
    simp [fire_nmea_msg, h]
  have hu : ∀ (r : Nat) (bb : List Nat) (ll : Nat),
      fire_ubx_msg r bb ll t = [] := by
    intro r bb ll
    simp [fire_ubx_msg, h]
  refine ⟨hn msg, hu reps b len, ?_, hu 5 _ _, hu 3 _ _⟩
  simp only [send_nmea]
  split
  · rename_i hcond
    exact absurd hcond.2 h
  · exact hn _

/-- Witness for C8 with testrun = 1. -/
theorem test_mode_no_uart_writes_w :
    fire_nmea_msg "$PUBX,40,GLL,0,0,0,0*5c\r\n" 1 = [] ∧
    fire_ubx_msg 5 cfg_cfg_save_all 28 1 = [] ∧
    send_nmea "$PUBX,40,GLL,0,0,0,0*" 1 = [] ∧
    send_ubx 1 = [] ∧
    send_ubx_gnss 1 = [] :=
  test_mode_no_uart_writes "$PUBX,40,GLL,0,0,0,0*"
    "$PUBX,40,GLL,0,0,0,0*5c\r\n" 5 28 cfg_cfg_save_all 1 (by decide)

/-- C9. On a sentence body without a `*` delimiter, `get_checksum`
takes the error branch (the C's commented "Checksum missing" case) and
returns the sentinel value 0. -/
theorem missing_star_returns_zero (s : String) (h : '*' ∉ s.toList) :
    get_checksum s = 0 := by
  have hdef : get_checksum s
      = if '*' ∈ s.toList then
          ((s.toList.takeWhile (fun c => c != '*')).drop 1).foldl
            (fun acc c => acc ^^^ c.toNat) 0
        else 0 := rfl
  rw [hdef, if_neg h]

/-- Witness for C9 at a body with no `*`. -/
theorem missing_star_returns_zero_w :
    get_checksum "$PUBX,40,GLL" = 0 :=
  missing_star_returns_zero "$PUBX,40,GLL" (by decide)

/-- C10 counterexample: baud-field extraction mutates the input body —
on `$PUBX,41,1,3,3,115200,0*` the buffer after the call differs from
the buffer before it (strtok has overwritten the commas with NUL). -/
theorem extract_mutates_input_body :
    (extract_baud_rate_run "$PUBX,41,1,3,3,115200,0*".toList).2
      ≠ "$PUBX,41,1,3,3,115200,0*".toList := by
  decide

/-- C10 (amended). `get_checksum` never mutates the input buffer (it
works on a local copy), and its buffer-level model agrees with the
functional one; but strtok-based baud-field extraction does mutate its
input: each of the 6 consumed comma delimiters is overwritten with a
NUL byte. -/
theorem checksum_pure_extraction_mutates :
    (∀ buf : List Char,
      (get_checksum_run buf).2 = buf ∧
      (get_checksum_run buf).1 = get_checksum (String.mk buf)) ∧
    (extract_baud_rate_run "$PUBX,41,1,3,3,115200,0*".toList).2
      = "$PUBX\x0041\x001\x003\x003\x00115200\x000*".toList := by
  refine ⟨fun buf => ⟨rfl, rfl⟩, by decide⟩

end GnssConfig
